import Mathlib

/-!
Verification of the DecentDB statement-execution and value-marshaling
contract (bindings/go/decentdb-go/decentdb.h).

The repository ships the boundary declaration (decentdb.h); the engine
implementing it is not part of the source tree here, so the behavioral
definitions below are modelled from the specification document
(prepared-statement state machine, tagged value model, row views, the
fused call path, and the per-handle error context), keeping the header's
names and conventions (1-based parameter indexes, 0-based column
indexes, the decentdb_value_view record layout).
-/

namespace DecentDB

/-- Error taxonomy from the spec (section 7): prepare-time, bind-time,
state-machine, execution, storage and configuration faults. -/
inductive ErrCode where
  | syntaxError
  | schemaError
  | typeMismatch
  | indexOutOfRange
  | invalidState
  | executionError
  | ioError
  | lockContention
  | configError
deriving DecidableEq, Repr

/-- Stable human-readable message associated with each error code
(spec section 4.5: messages are stable enough to assert on). -/
def errMessage : ErrCode → String
  | .syntaxError => "syntax error"
  | .schemaError => "schema error"
  | .typeMismatch => "type mismatch"
  | .indexOutOfRange => "parameter index out of range"
  | .invalidState => "invalid statement state"
  | .executionError => "execution error"
  | .ioError => "io error"
  | .lockContention => "lock contention"
  | .configError => "config error"

/-- Modelled from the spec: the tagged value union crossing the boundary
(section 3, Value): Null, Int64, Bool, Float64, Text, Blob and scaled
Decimal. Text and blob payloads are byte sequences with explicit length
(the list carries both); the float64 payload is the raw 64-bit pattern
carried verbatim across the boundary; Decimal is an exact integer
mantissa plus a non-negative power-of-ten scale. -/
inductive Value where
  | null
  | int64 (v : Int)
  | bool (b : Bool)
  | float64 (bits : Nat)
  | text (bytes : List Nat)
  | blob (bytes : List Nat)
  | decimal (unscaled : Int) (scale : Nat)
deriving DecidableEq, Repr

/-- The decentdb_value_view record from decentdb.h lines 53-61: kind tag,
null flag, int64 payload, float64 payload (its 64-bit pattern), byte
pointer plus explicit length, and the decimal scale. -/
structure ValueView where
  kind : Nat
  is_null : Bool
  int64_val : Int
  float64_val : Nat
  bytes : List Nat
  bytes_len : Nat
  decimal_scale : Nat
deriving DecidableEq, Repr

/-- The all-zero view record used as the base for encoding. -/
def ValueView.zero : ValueView :=
  { kind := 0, is_null := false, int64_val := 0, float64_val := 0
    bytes := [], bytes_len := 0, decimal_scale := 0 }

/-- Kind tags for the view record: 0 null, 1 int64, 2 bool, 3 float64,
4 text, 5 blob, 6 decimal. -/
def Value.kindTag : Value → Nat
  | .null => 0
  | .int64 _ => 1
  | .bool _ => 2
  | .float64 _ => 3
  | .text _ => 4
  | .blob _ => 5
  | .decimal _ _ => 6

/-- Modelled from the spec: encoding of a Value into the
decentdb_value_view record handed across the boundary (section 3,
RowView: each element carries variant kind, null flag and the variant
payload; decimal carries an explicit scale alongside the unscaled
integer). -/
def encodeView (v : Value) : ValueView :=
  match v with
  | .null => { ValueView.zero with kind := 0, is_null := true }
  | .int64 n => { ValueView.zero with kind := 1, int64_val := n }
  | .bool b => { ValueView.zero with kind := 2, int64_val := if b then 1 else 0 }
  | .float64 bits => { ValueView.zero with kind := 3, float64_val := bits }
  | .text bs => { ValueView.zero with kind := 4, bytes := bs, bytes_len := bs.length }
  | .blob bs => { ValueView.zero with kind := 5, bytes := bs, bytes_len := bs.length }
  | .decimal u sc => { ValueView.zero with kind := 6, int64_val := u, decimal_scale := sc }

/-- Modelled from the spec: decoding a view record back to the tagged
value it denotes, reading exactly bytes_len bytes of payload; the null
flag dominates, then the kind tag selects the variant. Ill-formed
records decode to none. -/
def decodeView (w : ValueView) : Option Value :=
  if w.is_null then some .null
  else
    match w.kind with
    | 1 => some (.int64 w.int64_val)
    | 2 => some (.bool (if w.int64_val = 0 then false else true))
    | 3 => some (.float64 w.float64_val)
    | 4 => some (.text (w.bytes.take w.bytes_len))
    | 5 => some (.blob (w.bytes.take w.bytes_len))
    | 6 => some (.decimal w.int64_val w.decimal_scale)
    | _ => none

/-- Cursor states of a prepared statement (spec section 4.2). -/
inductive CursorState where
  | prepared
  | hasRow
  | done
  | error
deriving DecidableEq, Repr

/-- Modelled from the spec: the result of executing the compiled plan
under a given binding vector — the rows it yields in order, an optional
execution fault hit after the last row, and the rows-affected
contribution of each step call (deltas i is added by the step consuming
position i; deltas rows.length by the step that reaches done). -/
structure ExecPlan where
  rows : List (List Value)
  tailErr : Option ErrCode
  deltas : Nat → Nat

/-- Modelled from the spec: the statement handle (section 3) — the
compiled plan (opaque to callers, modelled as a function from the
binding vector to its execution result), the 1-based parameter bindings
(position i of the list holds parameter i+1; unbound is implicit Null),
column name/type metadata fixed at prepare time, the cursor state, the
cursor position, the current row buffer and the rows-affected
counter. -/
structure Stmt where
  paramCount : Nat
  cols : List (String × Int)
  exec : List Value → ExecPlan
  bindings : List Value
  state : CursorState
  pos : Nat
  rowBuf : Option (List Value)
  rowsAffected : Nat

/-- Modelled from the spec: binding a value at a 1-based parameter index
(decentdb.h line 25: 1-based indexes match placeholders $1..$N); an
index outside 1..paramCount fails with IndexOutOfRange, a valid index
stores the value at list position index-1. -/
def bindValue (s : Stmt) (index_1_based : Nat) (v : Value) : Except ErrCode Stmt :=
  if 1 ≤ index_1_based ∧ index_1_based ≤ s.paramCount then
    .ok { s with bindings := s.bindings.set (index_1_based - 1) v }
  else
    .error .indexOutOfRange

/-- decentdb_bind_null (decentdb.h line 26). -/
def decentdb_bind_null (s : Stmt) (i : Nat) : Except ErrCode Stmt :=
  bindValue s i .null

/-- decentdb_bind_int64 (decentdb.h line 27). -/
def decentdb_bind_int64 (s : Stmt) (i : Nat) (v : Int) : Except ErrCode Stmt :=
  bindValue s i (.int64 v)

/-- decentdb_bind_bool (decentdb.h line 28). -/
def decentdb_bind_bool (s : Stmt) (i : Nat) (b : Bool) : Except ErrCode Stmt :=
  bindValue s i (.bool b)

/-- decentdb_bind_float64 (decentdb.h line 29); the payload is the
64-bit pattern of the double, carried verbatim. -/
def decentdb_bind_float64 (s : Stmt) (i : Nat) (bits : Nat) : Except ErrCode Stmt :=
  bindValue s i (.float64 bits)

/-- decentdb_bind_text (decentdb.h line 30); byte payload with explicit
length. -/
def decentdb_bind_text (s : Stmt) (i : Nat) (bs : List Nat) : Except ErrCode Stmt :=
  bindValue s i (.text bs)

/-- decentdb_bind_blob (decentdb.h line 31). -/
def decentdb_bind_blob (s : Stmt) (i : Nat) (bs : List Nat) : Except ErrCode Stmt :=
  bindValue s i (.blob bs)

/-- decentdb_bind_decimal (decentdb.h line 66): exact integer mantissa
plus non-negative scale. -/
def decentdb_bind_decimal (s : Stmt) (i : Nat) (unscaled : Int) (scale : Nat) :
    Except ErrCode Stmt :=
  bindValue s i (.decimal unscaled scale)

/-- Modelled from the spec: reset (section 4.2) — any state returns to
Prepared; the row buffer and cursor progress are cleared; bindings
survive. -/
def decentdb_reset (s : Stmt) : Stmt :=
  { s with state := .prepared, pos := 0, rowBuf := none, rowsAffected := 0 }

/-- Modelled from the spec: clearBindings (section 4.2) — every binding
reverts to implicit Null; the cursor state is unchanged. -/
def decentdb_clear_bindings (s : Stmt) : Stmt :=
  { s with bindings := List.replicate s.paramCount Value.null }

/-- Outcome of one step call: a row is available, the statement is
done, or a fault (decentdb.h line 37: 1=row available, 0=done,
<0=error). -/
inductive StepRes where
  | row
  | done
  | err (e : ErrCode)
deriving DecidableEq, Repr

/-- Modelled from the spec: step (section 4.2). In Error without an
intervening reset it fails immediately with InvalidState and changes
nothing. In Done the rows are exhausted: it reports done and changes
nothing. In Prepared or HasRow it drives the plan: if a row remains at
the cursor position it is loaded into the row buffer (state HasRow),
otherwise the statement finishes with Done, or with Error if the plan
ends in an execution fault. Successful steps accumulate the plan's
rows-affected delta. -/
def decentdb_step (s : Stmt) : Stmt × StepRes :=
  match s.state with
  | .error => (s, .err .invalidState)
  | .done => (s, .done)
  | _ =>
    let p := s.exec s.bindings
    if s.pos < p.rows.length then
      ({ s with state := .hasRow, rowBuf := some (p.rows.getD s.pos []),
                pos := s.pos + 1,
                rowsAffected := s.rowsAffected + p.deltas s.pos }, .row)
    else
      match p.tailErr with
      | some e => ({ s with state := .error, rowBuf := none }, .err e)
      | none => ({ s with state := .done, rowBuf := none,
                          rowsAffected := s.rowsAffected + p.deltas s.pos }, .done)

/-- Modelled from the spec: rowView (section 4.3) — valid exactly when
state is HasRow, returning the borrowed per-column view records of the
current row buffer; in any other state it fails with InvalidState. -/
def decentdb_row_view (s : Stmt) : Except ErrCode (List ValueView) :=
  if s.state = .hasRow then .ok ((s.rowBuf.getD []).map encodeView)
  else .error .invalidState

/-- decentdb_column_count (decentdb.h line 41): metadata fixed at
prepare time, independent of cursor state. -/
def decentdb_column_count (s : Stmt) : Nat :=
  s.cols.length

/-- decentdb_column_name (decentdb.h line 42): 0-based column index. -/
def decentdb_column_name (s : Stmt) (col_0_based : Nat) : Option String :=
  (s.cols.get? col_0_based).map Prod.fst

/-- decentdb_column_type (decentdb.h line 43): 0-based column index. -/
def decentdb_column_type (s : Stmt) (col_0_based : Nat) : Option Int :=
  (s.cols.get? col_0_based).map Prod.snd

/-- decentdb_column_decimal_unscaled (decentdb.h line 67): the exact
integer mantissa of the decimal in the current row at a 0-based column
index. -/
def decentdb_column_decimal_unscaled (s : Stmt) (col_0_based : Nat) : Int :=
  match (s.rowBuf.getD []).get? col_0_based with
  | some (.decimal u _) => u
  | _ => 0

/-- decentdb_column_decimal_scale (decentdb.h line 68). -/
def decentdb_column_decimal_scale (s : Stmt) (col_0_based : Nat) : Nat :=
  match (s.rowBuf.getD []).get? col_0_based with
  | some (.decimal _ sc) => sc
  | _ => 0

/-- decentdb_rows_affected (decentdb.h line 82). -/
def decentdb_rows_affected (s : Stmt) : Nat :=
  s.rowsAffected

/-- Tri-state outcome of the fused call (spec section 4.4):
success-with-row, success-no-row, or failure. -/
inductive FusedOutcome where
  | successRow (values : List ValueView)
  | successNoRow
  | failure (e : ErrCode)
deriving DecidableEq, Repr

/-- The bind loop inside the fused call, written as one inlined pass:
each (index, value) pair is stored in order, aborting at the first
out-of-range index with the partial binding state of the aborted
attempt. -/
def fusedBindLoop (s : Stmt) : List (Nat × Value) → Stmt × Option ErrCode
  | [] => (s, none)
  | (i, v) :: rest =>
    if 1 ≤ i ∧ i ≤ s.paramCount then
      fusedBindLoop { s with bindings := s.bindings.set (i - 1) v } rest
    else
      (s, some .indexOutOfRange)

/-- decentdb_step_with_params_row_view (decentdb.h lines 70-80),
modelled from the spec's FusedStepOperation (section 4.4): one composite
call performing reset, clear-bindings, the bind loop over the supplied
(index, value) pairs, one step, and — when a row resulted — the row
view, collapsing five boundary crossings into one. The reset and
clear-bindings stages are fused into a single state rewrite; a bind
failure aborts the call and is reported as the single unambiguous
error. -/
def decentdb_step_with_params_row_view (s : Stmt) (in_params : List (Nat × Value)) :
    Stmt × FusedOutcome :=
  let s0 : Stmt :=
    { s with state := .prepared, pos := 0, rowBuf := none, rowsAffected := 0,
             bindings := List.replicate s.paramCount Value.null }
  match fusedBindLoop s0 in_params with
  | (s1, some e) => (s1, .failure e)
  | (s1, none) =>
    match decentdb_step s1 with
    | (s2, .row) =>
      match decentdb_row_view s2 with
      | .ok vs => (s2, .successRow vs)
      | .error e => (s2, .failure e)
    | (s2, .done) => (s2, .successNoRow)
    | (s2, .err e) => (s2, .failure e)

/-- The bind stage as a host binding would drive it: one bindValue
boundary call per (index, value) pair, stopping at the first failure. -/
def bindSeq (s : Stmt) : List (Nat × Value) → Stmt × Option ErrCode
  | [] => (s, none)
  | (i, v) :: rest =>
    match bindValue s i v with
    | .ok s' => bindSeq s' rest
    | .error e => (s, some e)

/-- The same work as the fused call performed as separate boundary
calls on the handle: reset, clearBindings, each bind in order, one
step, and rowView when a row resulted (spec section 8, fused operation
equivalence). -/
def separateCalls (s : Stmt) (in_params : List (Nat × Value)) : Stmt × FusedOutcome :=
  let s1 := decentdb_reset s
  let s2 := decentdb_clear_bindings s1
  match bindSeq s2 in_params with
  | (s3, some e) => (s3, .failure e)
  | (s3, none) =>
    match decentdb_step s3 with
    | (s4, .row) =>
      match decentdb_row_view s4 with
      | .ok vs => (s4, .successRow vs)
      | .error e => (s4, .failure e)
    | (s4, .done) => (s4, .successNoRow)
    | (s4, .err e) => (s4, .failure e)

/-- Result of one boundary operation on a statement: plain success, a
row payload, exhaustion, or a failure carrying its error code. -/
inductive OpOut where
  | ok
  | row (values : List ValueView)
  | noRow
  | fail (e : ErrCode)
deriving DecidableEq, Repr

/-- The fallible statement-level boundary operations of decentdb.h:
the seven bind entry points, reset, clearBindings, step, rowView and
the fused call. -/
inductive Op where
  | bindNull (i : Nat)
  | bindInt64 (i : Nat) (v : Int)
  | bindBool (i : Nat) (b : Bool)
  | bindFloat64 (i : Nat) (bits : Nat)
  | bindText (i : Nat) (bs : List Nat)
  | bindBlob (i : Nat) (bs : List Nat)
  | bindDecimal (i : Nat) (u : Int) (sc : Nat)
  | reset
  | clearBindings
  | step
  | rowView
  | stepWithParams (ps : List (Nat × Value))

/-- Lift a bind result to an operation outcome: failure leaves the
statement untouched. -/
def liftBind (s : Stmt) (r : Except ErrCode Stmt) : Stmt × OpOut :=
  match r with
  | .ok s' => (s', .ok)
  | .error e => (s, .fail e)

/-- Dispatch one boundary operation to its statement-level
definition. -/
def runStmtOp : Op → Stmt → Stmt × OpOut
  | .bindNull i, s => liftBind s (decentdb_bind_null s i)
  | .bindInt64 i v, s => liftBind s (decentdb_bind_int64 s i v)
  | .bindBool i b, s => liftBind s (decentdb_bind_bool s i b)
  | .bindFloat64 i bits, s => liftBind s (decentdb_bind_float64 s i bits)
  | .bindText i bs, s => liftBind s (decentdb_bind_text s i bs)
  | .bindBlob i bs, s => liftBind s (decentdb_bind_blob s i bs)
  | .bindDecimal i u sc, s => liftBind s (decentdb_bind_decimal s i u sc)
  | .reset, s => (decentdb_reset s, .ok)
  | .clearBindings, s => (decentdb_clear_bindings s, .ok)
  | .step, s =>
    match decentdb_step s with
    | (s', .row) => (s', .row ((s'.rowBuf.getD []).map encodeView))
    | (s', .done) => (s', .noRow)
    | (s', .err e) => (s', .fail e)
  | .rowView, s =>
    match decentdb_row_view s with
    | .ok vs => (s, .row vs)
    | .error e => (s, .fail e)
  | .stepWithParams ps, s =>
    match decentdb_step_with_params_row_view s ps with
    | (s', .successRow vs) => (s', .row vs)
    | (s', .successNoRow) => (s', .noRow)
    | (s', .failure e) => (s', .fail e)

/-- Modelled from the spec: the database handle's error context
(section 3, ErrorContext) — one active (code, message) pair, overwritten
by each fallible call that fails. -/
structure Db where
  lastError : Option (ErrCode × String)
deriving DecidableEq, Repr

/-- Negative integer codes carried back across the boundary per error
kind (decentdb.h line 37: errors are reported as negative values). -/
def errCodeInt : ErrCode → Int
  | .syntaxError => -1
  | .schemaError => -2
  | .typeMismatch => -3
  | .indexOutOfRange => -4
  | .invalidState => -5
  | .executionError => -6
  | .ioError => -7
  | .lockContention => -8
  | .configError => -9

/-- decentdb_last_error_code (decentdb.h line 19), 0 when no error has
been recorded. -/
def decentdb_last_error_code (db : Db) : Int :=
  match db.lastError with
  | none => 0
  | some (e, _) => errCodeInt e

/-- decentdb_last_error_message (decentdb.h line 20). -/
def decentdb_last_error_message (db : Db) : String :=
  match db.lastError with
  | none => ""
  | some (_, m) => m

/-- Modelled from the spec: running one fallible boundary operation
against the database handle owning the statement (section 4.5): on
failure the handle's (code, message) pair is overwritten before the
failure signal is returned; on success the prior error is left
untouched. -/
def runDbOp (op : Op) (db : Db) (s : Stmt) : Db × Stmt × OpOut :=
  match runStmtOp op s with
  | (s', .fail e) => ({ lastError := some (e, errMessage e) }, s', .fail e)
  | (s', r) => (db, s', r)

/-- Modelled from the spec: a freshly prepared echo statement with n
parameters (a query shaped like SELECT $1, ..., $n, as in the spec's
round-trip property of section 8): its plan yields exactly one row
holding the binding vector verbatim, then is exhausted; it affects no
rows. -/
def echoStmt (n : Nat) : Stmt :=
  { paramCount := n
    cols := List.replicate n ("c", 0)
    exec := fun bs => { rows := [bs], tailErr := none, deltas := fun _ => 0 }
    bindings := List.replicate n Value.null
    state := .prepared
    pos := 0
    rowBuf := none
    rowsAffected := 0 }

/-- A concrete statement used as a test input: two parameters, two
columns, an echoing plan. -/
def wStmt : Stmt :=
  { paramCount := 2
    cols := [("id", 1), ("name", 4)]
    exec := fun bs => { rows := [bs], tailErr := none, deltas := fun _ => 0 }
    bindings := [Value.null, Value.null]
    state := .prepared
    pos := 0
    rowBuf := none
    rowsAffected := 0 }

/-- wStmt moved to the Error cursor state. -/
def wStmtErr : Stmt :=
  { wStmt with state := .error }

/-- A database handle with no recorded error. -/
def wDb : Db :=
  { lastError := none }

/-- The inlined fused bind loop performs exactly what the separate
per-parameter bindValue boundary calls perform. -/
theorem fusedBindLoop_eq_bindSeq (ps : List (Nat × Value)) (s : Stmt) :
    fusedBindLoop s ps = bindSeq s ps := by
  induction ps generalizing s with
  | nil => rfl
  | cons p rest ih =>
    obtain ⟨i, v⟩ := p
    by_cases h : 1 ≤ i ∧ i ≤ s.paramCount
    · simp [fusedBindLoop, bindSeq, bindValue, h, ih]
    · simp [fusedBindLoop, bindSeq, bindValue, h]

/-- C1: for every statement handle and every list of (index, value)
parameter pairs, the fused call decentdb_step_with_params_row_view
produces exactly the same outcome — row values on success-with-row,
done on success-no-row, the same failure otherwise — and the same final
statement, as performing reset, clearBindings, each bind in the given
order, one step, and rowView as separate calls on that handle. -/
theorem fused_step_equiv_separate_calls (s : Stmt) (ps : List (Nat × Value)) :
    decentdb_step_with_params_row_view s ps = separateCalls s ps := by
  simp only [decentdb_step_with_params_row_view, separateCalls, fusedBindLoop_eq_bindSeq]
  rfl

/-- Decoding the boundary view record produced for any value recovers
that value exactly. -/
theorem decodeView_encodeView (v : Value) : decodeView (encodeView v) = some v := by
  cases v with
  | null => rfl
  | int64 n => rfl
  | bool b => cases b <;> rfl
  | float64 bits => rfl
  | text bs => simp [encodeView, decodeView, ValueView.zero]
  | blob bs => simp [encodeView, decodeView, ValueView.zero]
  | decimal u sc => rfl

/-- C2: for every valid 1-based parameter index within the declared
column count and every supported value (null, int64, bool, float64,
text, blob, decimal with any non-negative scale), binding it on the
echo statement, stepping to a row and reading it back through rowView
yields a view record that decodes to a value exactly equal to the bound
one. -/
theorem bind_step_rowView_roundtrip (n idx : Nat) (v : Value)
    (h1 : 1 ≤ idx) (h2 : idx ≤ n) :
    ∃ s1 : Stmt, bindValue (echoStmt n) idx v = .ok s1 ∧
      (decentdb_step s1).2 = .row ∧
      ∃ es, decentdb_row_view (decentdb_step s1).1 = .ok es ∧
        idx - 1 < decentdb_column_count (echoStmt n) ∧
        (es.get? (idx - 1)).bind decodeView = some v := by
  have hlt : idx - 1 < n := by omega
  refine ⟨{ echoStmt n with
            bindings := (List.replicate n Value.null).set (idx - 1) v }, ?_, ?_, ?_⟩
  · simp [bindValue, echoStmt, h1, h2]
  · simp [decentdb_step, echoStmt]
  · refine ⟨((List.replicate n Value.null).set (idx - 1) v).map encodeView, ?_, ?_, ?_⟩
    · simp [decentdb_step, decentdb_row_view, echoStmt]
    · simpa [decentdb_column_count, echoStmt] using hlt
    · have hget : (((List.replicate n Value.null).set (idx - 1) v).map
          encodeView).get? (idx - 1) = some (encodeView v) := by
        rw [List.get?_map, List.get?_set_eq_of_lt]
        · rfl
        · simpa using hlt
      rw [hget]
      simpa using decodeView_encodeView v

/-- Concrete check of C2: binding int64 7 at parameter 1 of a
one-parameter echo statement and reading it back decodes to int64 7. -/
theorem bind_step_rowView_roundtrip_witness :
    ∃ s1 : Stmt, bindValue (echoStmt 1) 1 (.int64 7) = .ok s1 ∧
      (decentdb_step s1).2 = .row ∧
      ∃ es, decentdb_row_view (decentdb_step s1).1 = .ok es ∧
        1 - 1 < decentdb_column_count (echoStmt 1) ∧
        (es.get? (1 - 1)).bind decodeView = some (.int64 7) :=
  bind_step_rowView_roundtrip 1 1 (.int64 7) (by decide) (by decide)

/-- Modelled from the spec: the displayed magnitude of a scaled decimal
(section 3: Decimal's displayed magnitude equals unscaled / 10^scale,
scale ≥ 0), as an exact rational. -/
def decimalMagnitude (unscaled : Int) (scale : Nat) : ℚ :=
  (unscaled : ℚ) / (10 : ℚ) ^ scale

/-- One bind-then-step pass of the decimal scenario: bind
unscaled=12345, scale=2 at parameter 1 and step to the row. -/
def decBindStep (s : Stmt) : Stmt :=
  match decentdb_bind_decimal s 1 12345 2 with
  | .ok s' => (decentdb_step s').1
  | .error _ => s

/-- One full bind/step/reset cycle of the decimal scenario. -/
def decCycle (s : Stmt) : Stmt :=
  decentdb_reset (decBindStep s)

/-- n repeated bind/step/reset cycles. -/
def iterCycles : Nat → Stmt → Stmt
  | 0, s => s
  | n + 1, s => iterCycles n (decCycle s)

/-- The one-parameter echo statement after a completed decimal cycle:
cursor back at Prepared, the decimal binding persisted. -/
def decStar : Stmt :=
  { echoStmt 1 with bindings := [Value.decimal 12345 2] }

theorem decCycle_echo : decCycle (echoStmt 1) = decStar := rfl

theorem decCycle_star : decCycle decStar = decStar := rfl

theorem iterCycles_star (n : Nat) : iterCycles n decStar = decStar := by
  induction n with
  | zero => rfl
  | succ n ih => simpa [iterCycles, decCycle_star] using ih

theorem iterCycles_echo (n : Nat) :
    iterCycles n (echoStmt 1) = echoStmt 1 ∨ iterCycles n (echoStmt 1) = decStar := by
  cases n with
  | zero => exact Or.inl rfl
  | succ n => exact Or.inr (by simpa [iterCycles, decCycle_echo] using iterCycles_star n)

/-- C3: after any number of repeated bind/step/reset cycles, binding
unscaled=12345, scale=2 and reading the decimal column back yields
unscaled=12345 and scale=2 exactly, and the displayed magnitude of the
read-back pair is exactly 123.45 — no rounding drift; the scale is a
non-negative integer and the magnitude is unscaled / 10^scale. -/
theorem decimal_exact_roundtrip_cycles :
    (∀ n : Nat,
      decentdb_column_decimal_unscaled (decBindStep (iterCycles n (echoStmt 1))) 0 = 12345 ∧
      decentdb_column_decimal_scale (decBindStep (iterCycles n (echoStmt 1))) 0 = 2 ∧
      decimalMagnitude
        (decentdb_column_decimal_unscaled (decBindStep (iterCycles n (echoStmt 1))) 0)
        (decentdb_column_decimal_scale (decBindStep (iterCycles n (echoStmt 1))) 0)
        = (123.45 : ℚ)) ∧
    (∀ (u : Int) (sc : Nat),
      (0 : Int) ≤ (sc : Int) ∧ decimalMagnitude u sc = (u : ℚ) / (10 : ℚ) ^ sc) := by
  constructor
  · intro n
    have hmag : decimalMagnitude 12345 2 = (123.45 : ℚ) := by
      unfold decimalMagnitude
      norm_num
    rcases iterCycles_echo n with h | h <;> rw [h]
    · exact ⟨rfl, rfl, hmag⟩
    · exact ⟨rfl, rfl, hmag⟩
  · exact fun u sc => ⟨Int.natCast_nonneg sc, rfl⟩

/-- C4: in the Error cursor state, step fails immediately with
InvalidState, leaving the statement untouched — it does not execute,
yield a row, or report done; from Prepared or Done, step moves the
statement only to HasRow, Done, or Error. -/
theorem step_error_invalid_state (s : Stmt) :
    (s.state = .error → decentdb_step s = (s, .err .invalidState)) ∧
    (s.state = .prepared ∨ s.state = .done →
      (decentdb_step s).1.state = .hasRow ∨ (decentdb_step s).1.state = .done ∨
        (decentdb_step s).1.state = .error) := by
  constructor
  · intro h
    simp [decentdb_step, h]
  · rintro (h | h)
    · simp only [decentdb_step, h]
      split
      · exact Or.inl rfl
      · split
        · exact Or.inr (Or.inr rfl)
        · exact Or.inr (Or.inl rfl)
    · simp [decentdb_step, h]

/-- Concrete check of C4: step on an errored statement reports
InvalidState unchanged; step on a freshly prepared statement lands in
an allowed state. -/
theorem step_error_invalid_state_witness :
    decentdb_step wStmtErr = (wStmtErr, .err .invalidState) ∧
    ((decentdb_step wStmt).1.state = .hasRow ∨ (decentdb_step wStmt).1.state = .done ∨
      (decentdb_step wStmt).1.state = .error) :=
  ⟨(step_error_invalid_state wStmtErr).1 rfl,
   (step_error_invalid_state wStmt).2 (Or.inl rfl)⟩

/-- C5: every fallible boundary operation that fails overwrites the
owning database handle's (code, message) pair before returning its
failure signal; every one that succeeds leaves the stored pair
unchanged. -/
theorem fallible_op_error_context (op : Op) (db : Db) (s : Stmt) :
    (∀ e : ErrCode, (runStmtOp op s).2 = .fail e →
        (runDbOp op db s).1.lastError = some (e, errMessage e)) ∧
    ((∀ e : ErrCode, (runStmtOp op s).2 ≠ .fail e) →
        (runDbOp op db s).1.lastError = db.lastError) := by
  constructor
  · intro e he
    rcases hr : runStmtOp op s with ⟨s', r⟩
    rw [hr] at he
    simp only at he
    subst he
    simp [runDbOp, hr]
  · intro hne
    rcases hr : runStmtOp op s with ⟨s', r⟩
    cases r with
    | fail e => exact absurd (by rw [hr]) (hne e)
    | ok => simp [runDbOp, hr]
    | row vs => simp [runDbOp, hr]
    | noRow => simp [runDbOp, hr]

/-- Concrete check of C5: an out-of-range bind records
IndexOutOfRange with its stable message; a successful reset leaves the
empty error slot untouched. -/
theorem fallible_op_error_context_witness :
    (runDbOp (.bindNull 99) wDb wStmt).1.lastError =
      some (.indexOutOfRange, errMessage .indexOutOfRange) ∧
    (runDbOp .reset wDb wStmt).1.lastError = wDb.lastError :=
  ⟨(fallible_op_error_context (.bindNull 99) wDb wStmt).1 .indexOutOfRange rfl,
   (fallible_op_error_context .reset wDb wStmt).2 (fun _ h => nomatch h)⟩

/-- C6: from any cursor state, reset moves the statement to Prepared
and clears the row buffer, the cursor position and the accumulated
progress, while the parameter bindings made before the reset are
preserved unchanged. -/
theorem reset_clears_cursor_preserves_bindings (s : Stmt) :
    (decentdb_reset s).state = .prepared ∧
    (decentdb_reset s).rowBuf = none ∧
    (decentdb_reset s).pos = 0 ∧
    (decentdb_reset s).rowsAffected = 0 ∧
    (decentdb_reset s).bindings = s.bindings :=
  ⟨rfl, rfl, rfl, rfl, rfl⟩

/-- wStmt holding a current row. -/
def wStmtRow : Stmt :=
  { wStmt with state := .hasRow, rowBuf := some [Value.int64 42], pos := 1 }

/-- C7: rowView succeeds exactly when the cursor state is HasRow, and
then returns precisely the view records of the current row buffer; in
any other state it fails with InvalidState and returns no row. -/
theorem rowView_iff_hasRow (s : Stmt) :
    ((∃ es, decentdb_row_view s = .ok es) ↔ s.state = .hasRow) ∧
    (∀ r, s.state = .hasRow → s.rowBuf = some r →
        decentdb_row_view s = .ok (r.map encodeView)) ∧
    (s.state ≠ .hasRow → decentdb_row_view s = .error .invalidState) := by
  refine ⟨⟨?_, ?_⟩, ?_, ?_⟩
  · rintro ⟨es, hes⟩
    by_contra h
    simp [decentdb_row_view, h] at hes
  · intro h
    refine ⟨(s.rowBuf.getD []).map encodeView, ?_⟩
    simp [decentdb_row_view, h]
  · intro r h hr
    simp [decentdb_row_view, h, hr]
  · intro h
    simp [decentdb_row_view, h]

/-- Concrete check of C7: rowView on a statement holding a row returns
its view records; rowView on a freshly prepared statement fails with
InvalidState. -/
theorem rowView_iff_hasRow_witness :
    decentdb_row_view wStmtRow = .ok ([Value.int64 42].map encodeView) ∧
    decentdb_row_view wStmt = .error .invalidState :=
  ⟨(rowView_iff_hasRow wStmtRow).2.1 [Value.int64 42] rfl rfl,
   (rowView_iff_hasRow wStmt).2.2 (by decide)⟩

theorem liftBind_bindValue_cols (s : Stmt) (i : Nat) (v : Value) :
    (liftBind s (bindValue s i v)).1.cols = s.cols := by
  by_cases h : 1 ≤ i ∧ i ≤ s.paramCount <;> simp [bindValue, liftBind, h]

theorem step_cols (s : Stmt) : (decentdb_step s).1.cols = s.cols := by
  unfold decentdb_step
  split
  · rfl
  · rfl
  · dsimp only
    split
    · rfl
    · split <;> rfl

theorem fusedBindLoop_cols (ps : List (Nat × Value)) (s : Stmt) :
    (fusedBindLoop s ps).1.cols = s.cols := by
  induction ps generalizing s with
  | nil => rfl
  | cons p rest ih =>
    obtain ⟨i, v⟩ := p
    by_cases h : 1 ≤ i ∧ i ≤ s.paramCount <;> simp [fusedBindLoop, h, ih]

theorem fused_cols (s : Stmt) (ps : List (Nat × Value)) :
    (decentdb_step_with_params_row_view s ps).1.cols = s.cols := by
  simp only [decentdb_step_with_params_row_view]
  rcases hb : fusedBindLoop
      { s with state := .prepared, pos := 0, rowBuf := none, rowsAffected := 0,
               bindings := List.replicate s.paramCount Value.null } ps with ⟨s1, oe⟩
  have hc1 : s1.cols = s.cols := by
    have := fusedBindLoop_cols ps
      { s with state := .prepared, pos := 0, rowBuf := none, rowsAffected := 0,
               bindings := List.replicate s.paramCount Value.null }
    rw [hb] at this
    exact this
  cases oe with
  | some e => simp [hb, hc1]
  | none =>
    rcases hs : decentdb_step s1 with ⟨s2, r⟩
    have hc2 : s2.cols = s.cols := by
      have := step_cols s1
      rw [hs] at this
      exact this.trans hc1
    cases r with
    | row =>
      cases hv : decentdb_row_view s2 with
      | ok vs => simp [hb, hs, hv, hc2]
      | error e => simp [hb, hs, hv, hc2]
    | done => simp [hb, hs, hc2]
    | err e => simp [hb, hs, hc2]

theorem runStmtOp_cols (op : Op) (s : Stmt) : (runStmtOp op s).1.cols = s.cols := by
  cases op with
  | bindNull i => exact liftBind_bindValue_cols s i _
  | bindInt64 i v => exact liftBind_bindValue_cols s i _
  | bindBool i b => exact liftBind_bindValue_cols s i _
  | bindFloat64 i bits => exact liftBind_bindValue_cols s i _
  | bindText i bs => exact liftBind_bindValue_cols s i _
  | bindBlob i bs => exact liftBind_bindValue_cols s i _
  | bindDecimal i u sc => exact liftBind_bindValue_cols s i _
  | reset => rfl
  | clearBindings => rfl
  | step =>
    rcases hs : decentdb_step s with ⟨s', r⟩
    have hc : s'.cols = s.cols := by
      have := step_cols s
      rw [hs] at this
      exact this
    cases r <;> simp [runStmtOp, hs, hc]
  | rowView =>
    cases hv : decentdb_row_view s <;> simp [runStmtOp, hv]
  | stepWithParams ps =>
    rcases hf : decentdb_step_with_params_row_view s ps with ⟨s', o⟩
    have hc : s'.cols = s.cols := by
      have := fused_cols s ps
      rw [hf] at this
      exact this
    cases o <;> simp [runStmtOp, hf, hc]

/-- C8: the column count and the per-column name/type metadata of a
prepared statement are unchanged by every subsequent boundary operation
(bind, step, reset, clearBindings, rowView, the fused call), and
querying them succeeds for every in-range column in every cursor state,
whether or not a row is available. -/
theorem metadata_fixed_and_queryable (op : Op) (s : Stmt) :
    decentdb_column_count (runStmtOp op s).1 = decentdb_column_count s ∧
    (∀ i : Nat,
      decentdb_column_name (runStmtOp op s).1 i = decentdb_column_name s i ∧
      decentdb_column_type (runStmtOp op s).1 i = decentdb_column_type s i) ∧
    (∀ (c : CursorState) (i : Nat), i < decentdb_column_count s →
      (decentdb_column_name { s with state := c } i).isSome ∧
      (decentdb_column_type { s with state := c } i).isSome) := by
  have hc := runStmtOp_cols op s
  refine ⟨?_, ?_, ?_⟩
  · simp [decentdb_column_count, hc]
  · intro i
    constructor <;> simp [decentdb_column_name, decentdb_column_type, hc]
  · intro c i hi
    have hi' : i < s.cols.length := hi
    have hget := List.getElem?_eq_getElem hi'
    constructor <;> simp [decentdb_column_name, decentdb_column_type, hget]

/-- Concrete check of C8: stepping the test statement leaves its column
count unchanged, and the first column's name is queryable with the
cursor in the Done state. -/
theorem metadata_fixed_and_queryable_witness :
    decentdb_column_count (runStmtOp .step wStmt).1 = decentdb_column_count wStmt ∧
    ((decentdb_column_name { wStmt with state := .done } 0).isSome ∧
      (decentdb_column_type { wStmt with state := .done } 0).isSome) :=
  ⟨(metadata_fixed_and_queryable .step wStmt).1,
   (metadata_fixed_and_queryable .step wStmt).2.2 .done 0 (by decide)⟩

/-- n successive step calls on a statement. -/
def stepN : Nat → Stmt → Stmt
  | 0, s => s
  | n + 1, s => stepN n (decentdb_step s).1

theorem step_rowsAffected_le (s : Stmt) :
    s.rowsAffected ≤ (decentdb_step s).1.rowsAffected := by
  unfold decentdb_step
  split
  · exact le_refl _
  · exact le_refl _
  · dsimp only
    split
    · exact Nat.le_add_right _ _
    · split
      · exact le_refl _
      · exact Nat.le_add_right _ _

theorem stepN_rowsAffected_le (n : Nat) (s : Stmt) :
    s.rowsAffected ≤ (stepN n s).rowsAffected := by
  induction n generalizing s with
  | zero => exact le_refl _
  | succ n ih => exact le_trans (step_rowsAffected_le s) (ih (decentdb_step s).1)

theorem stepN_succ_out (n : Nat) (s : Stmt) :
    stepN (n + 1) s = (decentdb_step (stepN n s)).1 := by
  induction n generalizing s with
  | zero => rfl
  | succ n ih => exact ih (decentdb_step s).1

/-- wStmt with its rows exhausted. -/
def wStmtDone : Stmt :=
  { wStmt with state := .done, pos := 1, rowsAffected := 1 }

/-- C9: across successive step calls the rows-affected counter is
monotonically non-decreasing (it accumulates and never decreases
between reset boundaries), and once the statement has reached Done a
further step changes nothing, so the counter is final — the value to
read once execution is complete. -/
theorem rows_affected_monotone (s : Stmt) (n m : Nat) (h : n ≤ m) :
    decentdb_rows_affected (stepN n s) ≤ decentdb_rows_affected (stepN m s) ∧
    (s.state = .done → decentdb_step s = (s, .done)) := by
  constructor
  · induction m with
    | zero =>
      cases Nat.le_zero.mp h
      exact le_refl _
    | succ m ih =>
      rcases Nat.eq_or_lt_of_le h with he | hlt
      · rw [he]
      · calc decentdb_rows_affected (stepN n s)
            ≤ decentdb_rows_affected (stepN m s) := ih (Nat.lt_succ_iff.mp hlt)
          _ ≤ decentdb_rows_affected (stepN (m + 1) s) := by
              rw [stepN_succ_out]
              exact step_rowsAffected_le (stepN m s)
  · intro hd
    simp [decentdb_step, hd]

/-- Concrete check of C9: on the exhausted test statement the counter
after zero steps is bounded by the counter after two steps, and
stepping in Done changes nothing. -/
theorem rows_affected_monotone_witness :
    decentdb_rows_affected (stepN 0 wStmtDone) ≤
      decentdb_rows_affected (stepN 2 wStmtDone) ∧
    (wStmtDone.state = .done → decentdb_step wStmtDone = (wStmtDone, .done)) :=
  rows_affected_monotone wStmtDone 0 2 (by decide)

/-- C10: parameter binding addresses parameters by 1-based index — a
bind succeeds exactly for indexes 1..paramCount and stores the value at
list position index-1 — while every column accessor addresses columns
by 0-based index, succeeding exactly for indexes 0..columnCount-1: the
two conventions differ by one at the same public interface. -/
theorem index_conventions (s : Stmt) :
    (∀ (idx : Nat) (v : Value),
      (∃ s', bindValue s idx v = .ok s') ↔ 1 ≤ idx ∧ idx ≤ s.paramCount) ∧
    (∀ (idx : Nat) (v : Value) (s' : Stmt), s.bindings.length = s.paramCount →
      bindValue s idx v = .ok s' → s'.bindings.get? (idx - 1) = some v) ∧
    (∀ i : Nat, (decentdb_column_name s i).isSome ↔ i < decentdb_column_count s) ∧
    (∀ i : Nat, (decentdb_column_type s i).isSome ↔ i < decentdb_column_count s) := by
  refine ⟨?_, ?_, ?_, ?_⟩
  · intro idx v
    constructor
    · rintro ⟨s', hs'⟩
      by_contra h
      simp [bindValue, h] at hs'
    · intro h
      refine ⟨{ s with bindings := s.bindings.set (idx - 1) v }, ?_⟩
      simp [bindValue, h]
  · intro idx v s' hlen hok
    by_cases h : 1 ≤ idx ∧ idx ≤ s.paramCount
    · simp only [bindValue, if_pos h] at hok
      cases hok
      have hlt : idx - 1 < s.bindings.length := by omega
      exact List.get?_set_eq_of_lt v hlt
    · simp [bindValue, h] at hok
  · intro i
    simp [decentdb_column_name, decentdb_column_count, Option.isSome_iff_ne_none,
      ne_eq, List.get?_eq_none, Nat.not_le]
  · intro i
    simp [decentdb_column_type, decentdb_column_count, Option.isSome_iff_ne_none,
      ne_eq, List.get?_eq_none, Nat.not_le]

/-- Concrete check of C10: on the two-parameter, two-column test
statement, bind index 1 is valid, the value bound at index 2 lands at
list position 1, and column index 0 is queryable. -/
theorem index_conventions_witness :
    (∃ s', bindValue wStmt 1 Value.null = .ok s') ∧
    ({ wStmt with bindings := [Value.null, Value.int64 5] } : Stmt).bindings.get? (2 - 1) =
      some (Value.int64 5) ∧
    (decentdb_column_name wStmt 0).isSome :=
  ⟨((index_conventions wStmt).1 1 Value.null).mpr (by decide),
   (index_conventions wStmt).2.1 2 (Value.int64 5)
     { wStmt with bindings := [Value.null, Value.int64 5] } rfl rfl,
   ((index_conventions wStmt).2.2.1 0).mpr (by decide)⟩

end DecentDB
